import Mathlib

/-!
# Cargo Clash — verification of the simulation core

A shallow embedding of the game's simulation core (combat resolution,
market economics, travel state, mission-deadline sweep, and the
WebSocket connection registry), translated from the Python sources in
`backend/app/routers/combat.py`, `backend/app/routers/vehicles.py`,
`backend/app/game_engine.py` and `backend/app/websocket_manager.py`,
together with proofs of the specification's testable properties.

Modelling conventions:
* Python `int` is `Int`; timestamps are integer seconds.
* Python floats appearing only as literal constants (0.95, 1.05, 0.7,
  1.5, 0.1, variance rolls) are modelled as exact rationals `ℚ`.
* Python `int(x)` (truncation toward zero) is `pyInt`; Python `//`
  (floor division) is `Int.fdiv`.
* `random.uniform` / `random.randint` / `random.random` rolls are
  passed in explicitly as parameters, so every function is a pure
  function of its inputs and its pinned rolls.
* Python dicts are association lists in insertion order; assigning to
  a present key updates the entry in place, assigning to an absent key
  appends.
-/

namespace CargoClash

/-- Python `int(q)`: truncation toward zero on an exact rational. -/
def pyInt (q : ℚ) : Int := q.num.tdiv q.den

theorem pyInt_of_nonneg {q : ℚ} (h : 0 ≤ q) : pyInt q = ⌊q⌋ := by
  rw [Rat.floor_def]
  exact Int.tdiv_eq_ediv (Rat.num_nonneg.mpr h) (by positivity)

theorem one_le_pyInt {q : ℚ} (h : 1 ≤ q) : 1 ≤ pyInt q := by
  rw [pyInt_of_nonneg (by linarith)]
  exact Int.le_floor.mpr (by exact_mod_cast h)

/-- CPython dict assignment `d[k] = v` on an association list:
update in place when the key is present, append otherwise. -/
def dictSet {β : Type} (l : List (Int × β)) (k : Int) (v : β) : List (Int × β) :=
  if l.any (fun e => e.1 = k) then
    l.map (fun e => if e.1 = k then (k, v) else e)
  else
    l ++ [(k, v)]

/-- CPython dict read-modify-write `d[k] = d.get(k, 0) + v` for cargo maps. -/
def cargoAdd (l : List (String × Int)) (k : String) (v : Int) : List (String × Int) :=
  if l.any (fun e => e.1 = k) then
    l.map (fun e => if e.1 = k then (e.1, e.2 + v) else e)
  else
    l ++ [(k, v)]

/-! ## Combat resolution (`backend/app/routers/combat.py`) -/

/-- The combat-relevant snapshot of a `Vehicle` row: owner, combat
stats, and the `current_cargo` JSON dict. -/
structure Combatant where
  owner_id : Int
  attack_power : Int
  defense : Int
  durability : Int
  cargo : List (String × Int)
deriving Repr, DecidableEq

/-- The two `random.uniform` rolls drawn inside `_execute_combat`:
`damage_variance = uniform(0.8, 1.2)` and the counter-attack factor
`uniform(0.5, 0.8)`. -/
structure CombatRolls where
  damage_variance : ℚ
  counter_variance : ℚ
deriving Repr, DecidableEq

/-- Damage multiplier chosen from `combat_action.action_type`:
1.0 for "attack", 1.5 for "special_ability", 0.8 otherwise. -/
def damageMultiplier (action_type : String) : ℚ :=
  if action_type = "attack" then 1
  else if action_type = "special_ability" then 3/2
  else 4/5

/-- Everything `_execute_combat` produces: the returned `CombatResult`
fields together with the post-combat state of both vehicles (the
Python function mutates the two ORM rows in place and commits). -/
structure CombatOutcome where
  winner_id : Option Int
  damage_dealt : Int
  damage_received : Int
  cargo_lost : List (String × Int)
  cargo_gained : List (String × Int)
  credits_lost : Int
  credits_gained : Int
  experience_gained : Int
  attacker_durability : Int
  target_durability : Int
  attacker_cargo : List (String × Int)
  target_cargo : List (String × Int)
deriving Repr, DecidableEq

/-- `min(quantity, quantity // 4)` per cargo line, kept when positive:
the `cargo_gained` / `cargo_lost` dict built by the attacker-win branch. -/
def stolenCargo (cargo : List (String × Int)) : List (String × Int) :=
  (cargo.map (fun e => (e.1, min e.2 (Int.fdiv e.2 4)))).filter (fun e => 0 < e.2)

/-- The defender's cargo after `target_cargo[cargo_type] -= stolen_amount`
was applied to every line with a positive stolen amount. -/
def cargoAfterTheft (cargo : List (String × Int)) : List (String × Int) :=
  cargo.map (fun e =>
    if 0 < min e.2 (Int.fdiv e.2 4) then (e.1, e.2 - min e.2 (Int.fdiv e.2 4)) else e)

/-- `_execute_combat` (combat.py lines 303-381), with the two random
rolls pinned as parameters. -/
def execute_combat (attacker target : Combatant) (action_type : String)
    (rolls : CombatRolls) : CombatOutcome :=
  let base_damage := attacker.attack_power
  let final_damage := pyInt ((base_damage : ℚ) * damageMultiplier action_type * rolls.damage_variance)
  let damage_after_defense := max 1 (final_damage - target.defense)
  let target_durability := max 0 (target.durability - damage_after_defense)
  let counter_base := max 1 (target.attack_power - attacker.defense)
  let counter_damage := pyInt ((counter_base : ℚ) * rolls.counter_variance)
  let attacker_durability := max 0 (attacker.durability - counter_damage)
  let winner_id : Option Int :=
    if target_durability = 0 then some attacker.owner_id
    else if attacker_durability = 0 then some target.owner_id
    else none
  let attackerWins := winner_id = some attacker.owner_id
  { winner_id := winner_id
    damage_dealt := damage_after_defense
    damage_received := counter_damage
    cargo_lost := if attackerWins then stolenCargo target.cargo else []
    cargo_gained := if attackerWins then stolenCargo target.cargo else []
    credits_lost := 0
    credits_gained := if attackerWins then 100 else 0
    experience_gained := if attackerWins then 50 else 25
    attacker_durability := attacker_durability
    target_durability := target_durability
    attacker_cargo :=
      if attackerWins then
        (stolenCargo target.cargo).foldl (fun acc e => cargoAdd acc e.1 e.2) attacker.cargo
      else attacker.cargo
    target_cargo := if attackerWins then cargoAfterTheft target.cargo else target.cargo }

/-- `_execute_pirate_combat`'s generated NPC stat block
(`pirate_stats` dict in `handle_pirate_encounter`). -/
structure PirateStats where
  attack_power : Int
  defense : Int
  durability : Int
deriving Repr, DecidableEq

/-- The random rolls drawn inside `_execute_pirate_combat`, in order:
`uniform(0.8, 1.2)`, `uniform(0.7, 1.0)`, `randint(50, 200)`,
`random()`, `randint(100, 500)`. -/
structure PirateRolls where
  damage_variance : ℚ
  pirate_variance : ℚ
  win_credits : Int
  rare_roll : ℚ
  loss_credits : Int
deriving Repr, DecidableEq

/-- The `CombatResult` of a pirate encounter together with the
post-combat vehicle state and final pirate durability. -/
structure PirateOutcome where
  winner_id : Option Int
  damage_dealt : Int
  damage_received : Int
  cargo_lost : List (String × Int)
  cargo_gained : List (String × Int)
  credits_lost : Int
  credits_gained : Int
  experience_gained : Int
  vehicle_durability : Int
  pirate_durability : Int
  vehicle_cargo : List (String × Int)
deriving Repr, DecidableEq

/-- `min(quantity, quantity // 3)` per cargo line, kept when positive:
the `cargo_lost` dict built by the pirate-win branch. -/
def lostCargoThird (cargo : List (String × Int)) : List (String × Int) :=
  (cargo.map (fun e => (e.1, min e.2 (Int.fdiv e.2 3)))).filter (fun e => 0 < e.2)

/-- The vehicle's cargo after `current_cargo[cargo_type] -= lost_amount`
was applied to every line with a positive lost amount. -/
def cargoAfterPirateLoss (cargo : List (String × Int)) : List (String × Int) :=
  cargo.map (fun e =>
    if 0 < min e.2 (Int.fdiv e.2 3) then (e.1, e.2 - min e.2 (Int.fdiv e.2 3)) else e)

/-- `_execute_pirate_combat` (combat.py lines 384-455), with the
random rolls pinned as parameters.  Note the source floors the
vehicle's durability at 0 but lets the pirate durability go negative,
and the winner stays `None` both when the vehicle is destroyed and
when neither side reaches 0. -/
def execute_pirate_combat (vehicle : Combatant) (pirate : PirateStats)
    (action_type : String) (r : PirateRolls) : PirateOutcome :=
  let player_damage :=
    max 1 (pyInt ((vehicle.attack_power : ℚ) * damageMultiplier action_type * r.damage_variance)
            - pirate.defense)
  let pirate_damage :=
    pyInt (((max 1 (pirate.attack_power - vehicle.defense) : Int) : ℚ) * r.pirate_variance)
  let pirate_durability := pirate.durability - player_damage
  let vehicle_durability := max 0 (vehicle.durability - pirate_damage)
  let winner_id : Option Int :=
    if pirate_durability ≤ 0 then some vehicle.owner_id else none
  let playerWins := winner_id = some vehicle.owner_id
  { winner_id := winner_id
    damage_dealt := player_damage
    damage_received := pirate_damage
    cargo_lost := if playerWins then [] else lostCargoThird vehicle.cargo
    cargo_gained :=
      if playerWins then (if r.rare_roll < 3/10 then [("artifacts", 1)] else []) else []
    credits_lost := if playerWins then 0 else r.loss_credits
    credits_gained := if playerWins then r.win_credits else 0
    experience_gained := if playerWins then 75 else 25
    vehicle_durability := vehicle_durability
    pirate_durability := pirate_durability
    vehicle_cargo := if playerWins then vehicle.cargo else cargoAfterPirateLoss vehicle.cargo }

/-! ### Combat claims -/

/-- C1 counterexample: attacker (owner 1, attack 5, defense 10,
durability 1) strikes defender (owner 2, attack 12, defense 0,
durability 1) with an ordinary attack; the damage variance 1.0 lies in
[0.8, 1.2] and the counter variance 0.5 lies in [0.5, 0.8].  Both
durabilities reach 0 in the exchange, yet the attacker — whose own
durability is 0 — is declared the winner. -/
theorem combat_both_zero_attacker_wins :
    (4/5 : ℚ) ≤ 1 ∧ (1 : ℚ) ≤ 6/5 ∧ (1/2 : ℚ) ≤ 1/2 ∧ (1/2 : ℚ) ≤ 4/5 ∧
    (execute_combat ⟨1, 5, 10, 1, []⟩ ⟨2, 12, 0, 1, []⟩ "attack"
        ⟨1, 1/2⟩).target_durability = 0 ∧
    (execute_combat ⟨1, 5, 10, 1, []⟩ ⟨2, 12, 0, 1, []⟩ "attack"
        ⟨1, 1/2⟩).attacker_durability = 0 ∧
    (execute_combat ⟨1, 5, 10, 1, []⟩ ⟨2, 12, 0, 1, []⟩ "attack"
        ⟨1, 1/2⟩).winner_id = some 1 := by
  norm_num [execute_combat, pyInt, damageMultiplier]

/-- C1 (amended): `_execute_combat` declares the attacker's owner the
winner exactly when the defender's durability reaches 0 — even if the
attacker's durability also reaches 0 in the same exchange — declares
the defender's owner the winner exactly when only the attacker's
durability reaches 0, and declares no winner exactly when neither
reaches 0. -/
theorem execute_combat_winner_rule (a t : Combatant) (act : String) (r : CombatRolls)
    (h : a.owner_id ≠ t.owner_id) :
    ((execute_combat a t act r).winner_id = some a.owner_id ↔
      (execute_combat a t act r).target_durability = 0) ∧
    ((execute_combat a t act r).winner_id = some t.owner_id ↔
      ((execute_combat a t act r).target_durability ≠ 0 ∧
       (execute_combat a t act r).attacker_durability = 0)) ∧
    ((execute_combat a t act r).winner_id = none ↔
      ((execute_combat a t act r).target_durability ≠ 0 ∧
       (execute_combat a t act r).attacker_durability ≠ 0)) := by
  simp only [execute_combat]
  split_ifs with h1 h2 <;> simp_all <;> omega

/-- Witness for C1's amended theorem at a concrete exchange. -/
theorem execute_combat_winner_rule_witness :
    (1 : Int) ≠ 2 ∧
    (((execute_combat ⟨1, 50, 10, 30, []⟩ ⟨2, 20, 5, 30, []⟩ "attack"
        ⟨1, 1/2⟩).winner_id = some 1 ↔
      (execute_combat ⟨1, 50, 10, 30, []⟩ ⟨2, 20, 5, 30, []⟩ "attack"
        ⟨1, 1/2⟩).target_durability = 0) ∧
    ((execute_combat ⟨1, 50, 10, 30, []⟩ ⟨2, 20, 5, 30, []⟩ "attack"
        ⟨1, 1/2⟩).winner_id = some 2 ↔
      ((execute_combat ⟨1, 50, 10, 30, []⟩ ⟨2, 20, 5, 30, []⟩ "attack"
        ⟨1, 1/2⟩).target_durability ≠ 0 ∧
       (execute_combat ⟨1, 50, 10, 30, []⟩ ⟨2, 20, 5, 30, []⟩ "attack"
        ⟨1, 1/2⟩).attacker_durability = 0)) ∧
    ((execute_combat ⟨1, 50, 10, 30, []⟩ ⟨2, 20, 5, 30, []⟩ "attack"
        ⟨1, 1/2⟩).winner_id = none ↔
      ((execute_combat ⟨1, 50, 10, 30, []⟩ ⟨2, 20, 5, 30, []⟩ "attack"
        ⟨1, 1/2⟩).target_durability ≠ 0 ∧
       (execute_combat ⟨1, 50, 10, 30, []⟩ ⟨2, 20, 5, 30, []⟩ "attack"
        ⟨1, 1/2⟩).attacker_durability ≠ 0))) :=
  ⟨by decide, execute_combat_winner_rule _ _ _ _ (by decide)⟩

/-- C8: `_execute_combat` is deterministic once its two random rolls
are pinned — equal attacker and defender snapshots, equal action and
equal rolls yield the same damage dealt, damage received, winner,
cargo transfer and credit reward. -/
theorem execute_combat_deterministic (a₁ a₂ t₁ t₂ : Combatant) (act₁ act₂ : String)
    (r₁ r₂ : CombatRolls) (ha : a₁ = a₂) (ht : t₁ = t₂) (hact : act₁ = act₂)
    (hr : r₁ = r₂) :
    (execute_combat a₁ t₁ act₁ r₁).damage_dealt = (execute_combat a₂ t₂ act₂ r₂).damage_dealt ∧
    (execute_combat a₁ t₁ act₁ r₁).damage_received = (execute_combat a₂ t₂ act₂ r₂).damage_received ∧
    (execute_combat a₁ t₁ act₁ r₁).winner_id = (execute_combat a₂ t₂ act₂ r₂).winner_id ∧
    (execute_combat a₁ t₁ act₁ r₁).cargo_gained = (execute_combat a₂ t₂ act₂ r₂).cargo_gained ∧
    (execute_combat a₁ t₁ act₁ r₁).cargo_lost = (execute_combat a₂ t₂ act₂ r₂).cargo_lost ∧
    (execute_combat a₁ t₁ act₁ r₁).attacker_cargo = (execute_combat a₂ t₂ act₂ r₂).attacker_cargo ∧
    (execute_combat a₁ t₁ act₁ r₁).target_cargo = (execute_combat a₂ t₂ act₂ r₂).target_cargo ∧
    (execute_combat a₁ t₁ act₁ r₁).credits_gained = (execute_combat a₂ t₂ act₂ r₂).credits_gained := by
  subst ha ht hact hr
  exact ⟨rfl, rfl, rfl, rfl, rfl, rfl, rfl, rfl⟩

/-- Witness for C8 at a concrete pair of identical runs. -/
theorem execute_combat_deterministic_witness :
    (Combatant.mk 1 50 10 30 [("ore", 8)]) = (Combatant.mk 1 50 10 30 [("ore", 8)]) ∧
    (Combatant.mk 2 20 5 30 [("fuel", 4)]) = (Combatant.mk 2 20 5 30 [("fuel", 4)]) ∧
    "special_ability" = "special_ability" ∧
    (CombatRolls.mk (11/10) (3/5)) = (CombatRolls.mk (11/10) (3/5)) ∧
    ((execute_combat ⟨1, 50, 10, 30, [("ore", 8)]⟩ ⟨2, 20, 5, 30, [("fuel", 4)]⟩
        "special_ability" ⟨11/10, 3/5⟩).damage_dealt =
      (execute_combat ⟨1, 50, 10, 30, [("ore", 8)]⟩ ⟨2, 20, 5, 30, [("fuel", 4)]⟩
        "special_ability" ⟨11/10, 3/5⟩).damage_dealt ∧
     (execute_combat ⟨1, 50, 10, 30, [("ore", 8)]⟩ ⟨2, 20, 5, 30, [("fuel", 4)]⟩
        "special_ability" ⟨11/10, 3/5⟩).damage_received =
      (execute_combat ⟨1, 50, 10, 30, [("ore", 8)]⟩ ⟨2, 20, 5, 30, [("fuel", 4)]⟩
        "special_ability" ⟨11/10, 3/5⟩).damage_received ∧
     (execute_combat ⟨1, 50, 10, 30, [("ore", 8)]⟩ ⟨2, 20, 5, 30, [("fuel", 4)]⟩
        "special_ability" ⟨11/10, 3/5⟩).winner_id =
      (execute_combat ⟨1, 50, 10, 30, [("ore", 8)]⟩ ⟨2, 20, 5, 30, [("fuel", 4)]⟩
        "special_ability" ⟨11/10, 3/5⟩).winner_id ∧
     (execute_combat ⟨1, 50, 10, 30, [("ore", 8)]⟩ ⟨2, 20, 5, 30, [("fuel", 4)]⟩
        "special_ability" ⟨11/10, 3/5⟩).cargo_gained =
      (execute_combat ⟨1, 50, 10, 30, [("ore", 8)]⟩ ⟨2, 20, 5, 30, [("fuel", 4)]⟩
        "special_ability" ⟨11/10, 3/5⟩).cargo_gained ∧
     (execute_combat ⟨1, 50, 10, 30, [("ore", 8)]⟩ ⟨2, 20, 5, 30, [("fuel", 4)]⟩
        "special_ability" ⟨11/10, 3/5⟩).cargo_lost =
      (execute_combat ⟨1, 50, 10, 30, [("ore", 8)]⟩ ⟨2, 20, 5, 30, [("fuel", 4)]⟩
        "special_ability" ⟨11/10, 3/5⟩).cargo_lost ∧
     (execute_combat ⟨1, 50, 10, 30, [("ore", 8)]⟩ ⟨2, 20, 5, 30, [("fuel", 4)]⟩
        "special_ability" ⟨11/10, 3/5⟩).attacker_cargo =
      (execute_combat ⟨1, 50, 10, 30, [("ore", 8)]⟩ ⟨2, 20, 5, 30, [("fuel", 4)]⟩
        "special_ability" ⟨11/10, 3/5⟩).attacker_cargo ∧
     (execute_combat ⟨1, 50, 10, 30, [("ore", 8)]⟩ ⟨2, 20, 5, 30, [("fuel", 4)]⟩
        "special_ability" ⟨11/10, 3/5⟩).target_cargo =
      (execute_combat ⟨1, 50, 10, 30, [("ore", 8)]⟩ ⟨2, 20, 5, 30, [("fuel", 4)]⟩
        "special_ability" ⟨11/10, 3/5⟩).target_cargo ∧
     (execute_combat ⟨1, 50, 10, 30, [("ore", 8)]⟩ ⟨2, 20, 5, 30, [("fuel", 4)]⟩
        "special_ability" ⟨11/10, 3/5⟩).credits_gained =
      (execute_combat ⟨1, 50, 10, 30, [("ore", 8)]⟩ ⟨2, 20, 5, 30, [("fuel", 4)]⟩
        "special_ability" ⟨11/10, 3/5⟩).credits_gained) :=
  ⟨rfl, rfl, rfl, rfl,
   execute_combat_deterministic _ _ _ _ _ _ _ _ rfl rfl rfl rfl⟩

theorem min_self_fdiv {q d : Int} (hq : 0 ≤ q) (hd : 0 ≤ d) :
    min q (Int.fdiv q d) = Int.fdiv q d := by
  rw [Int.fdiv_eq_ediv _ hd]
  exact min_eq_right (Int.ediv_le_self _ hq)

theorem cargoAfterPirateLoss_of_nonneg (cargo : List (String × Int))
    (h : ∀ e ∈ cargo, 0 ≤ e.2) :
    cargoAfterPirateLoss cargo = cargo.map (fun e => (e.1, e.2 - Int.fdiv e.2 3)) := by
  unfold cargoAfterPirateLoss
  apply List.map_congr_left
  intro e he
  have h2 := h e he
  rw [min_self_fdiv h2 (by norm_num)]
  have hnn : 0 ≤ Int.fdiv e.2 3 := by
    rw [Int.fdiv_eq_ediv _ (by norm_num)]
    exact Int.ediv_nonneg h2 (by norm_num)
  by_cases hs : 0 < Int.fdiv e.2 3
  · simp [hs]
  · have h0 : Int.fdiv e.2 3 = 0 := le_antisymm (not_lt.mp hs) hnn
    simp [hs, h0]

theorem lostCargoThird_of_nonneg (cargo : List (String × Int))
    (h : ∀ e ∈ cargo, 0 ≤ e.2) :
    lostCargoThird cargo
      = (cargo.map (fun e => (e.1, Int.fdiv e.2 3))).filter (fun e => 0 < e.2) := by
  unfold lostCargoThird
  have hmap : cargo.map (fun e => (e.1, min e.2 (Int.fdiv e.2 3)))
      = cargo.map (fun e => (e.1, Int.fdiv e.2 3)) :=
    List.map_congr_left (fun e he => by rw [min_self_fdiv (h e he) (by norm_num)])
  rw [hmap]

/-- C10: in a pirate encounter, whenever the vehicle is not the
declared winner — which includes the draw where neither the pirate's
durability drops to 0 nor the vehicle's durability drops to 0 — the
loss branch runs: every cargo line loses `quantity // 3` units
(integer division) and the `randint(100, 500)` credit-loss roll is
charged, regardless of whether the vehicle's durability actually
reached 0. -/
theorem execute_pirate_combat_loss_branch (v : Combatant) (ps : PirateStats)
    (act : String) (r : PirateRolls)
    (h : (execute_pirate_combat v ps act r).winner_id ≠ some v.owner_id)
    (hcargo : ∀ e ∈ v.cargo, 0 ≤ e.2)
    (hlo : 100 ≤ r.loss_credits) (hhi : r.loss_credits ≤ 500) :
    (execute_pirate_combat v ps act r).vehicle_cargo
      = v.cargo.map (fun e => (e.1, e.2 - Int.fdiv e.2 3)) ∧
    (execute_pirate_combat v ps act r).cargo_lost
      = (v.cargo.map (fun e => (e.1, Int.fdiv e.2 3))).filter (fun e => 0 < e.2) ∧
    (execute_pirate_combat v ps act r).credits_lost = r.loss_credits ∧
    100 ≤ (execute_pirate_combat v ps act r).credits_lost ∧
    (execute_pirate_combat v ps act r).credits_lost ≤ 500 ∧
    (execute_pirate_combat v ps act r).credits_gained = 0 ∧
    (execute_pirate_combat v ps act r).cargo_gained = [] := by
  simp only [execute_pirate_combat] at h ⊢
  split_ifs at h ⊢ with h1 h2 h3 <;>
    first
      | exact absurd rfl h
      | exact ⟨cargoAfterPirateLoss_of_nonneg v.cargo hcargo,
               lostCargoThird_of_nonneg v.cargo hcargo, rfl, hlo, hhi, rfl, rfl⟩
      | simp_all

/-- Witness for C10 at a concrete draw: the pirate survives with 998
durability and the vehicle with 95, yet the vehicle loses a third of
each cargo line and 300 credits. -/
theorem execute_pirate_combat_loss_branch_witness :
    ((execute_pirate_combat ⟨7, 10, 0, 100, [("ore", 7), ("gas", 2)]⟩ ⟨5, 100, 999⟩
        "attack" ⟨1, 1, 100, 1/2, 300⟩).winner_id ≠ some 7) ∧
    (∀ e ∈ [(("ore" : String), (7 : Int)), ("gas", 2)], 0 ≤ e.2) ∧
    (100 : Int) ≤ 300 ∧ (300 : Int) ≤ 500 ∧
    ((execute_pirate_combat ⟨7, 10, 0, 100, [("ore", 7), ("gas", 2)]⟩ ⟨5, 100, 999⟩
        "attack" ⟨1, 1, 100, 1/2, 300⟩).vehicle_cargo
      = [(("ore" : String), (7 : Int)), ("gas", 2)].map (fun e => (e.1, e.2 - Int.fdiv e.2 3)) ∧
     (execute_pirate_combat ⟨7, 10, 0, 100, [("ore", 7), ("gas", 2)]⟩ ⟨5, 100, 999⟩
        "attack" ⟨1, 1, 100, 1/2, 300⟩).cargo_lost
      = ([(("ore" : String), (7 : Int)), ("gas", 2)].map
          (fun e => (e.1, Int.fdiv e.2 3))).filter (fun e => 0 < e.2) ∧
     (execute_pirate_combat ⟨7, 10, 0, 100, [("ore", 7), ("gas", 2)]⟩ ⟨5, 100, 999⟩
        "attack" ⟨1, 1, 100, 1/2, 300⟩).credits_lost = 300 ∧
     100 ≤ (execute_pirate_combat ⟨7, 10, 0, 100, [("ore", 7), ("gas", 2)]⟩ ⟨5, 100, 999⟩
        "attack" ⟨1, 1, 100, 1/2, 300⟩).credits_lost ∧
     (execute_pirate_combat ⟨7, 10, 0, 100, [("ore", 7), ("gas", 2)]⟩ ⟨5, 100, 999⟩
        "attack" ⟨1, 1, 100, 1/2, 300⟩).credits_lost ≤ 500 ∧
     (execute_pirate_combat ⟨7, 10, 0, 100, [("ore", 7), ("gas", 2)]⟩ ⟨5, 100, 999⟩
        "attack" ⟨1, 1, 100, 1/2, 300⟩).credits_gained = 0 ∧
     (execute_pirate_combat ⟨7, 10, 0, 100, [("ore", 7), ("gas", 2)]⟩ ⟨5, 100, 999⟩
        "attack" ⟨1, 1, 100, 1/2, 300⟩).cargo_gained = []) :=
  ⟨by norm_num [execute_pirate_combat, pyInt, damageMultiplier]; decide,
   by decide, by decide, by decide,
   execute_pirate_combat_loss_branch _ _ _ _
     (by norm_num [execute_pirate_combat, pyInt, damageMultiplier]; decide)
     (by decide) (by decide) (by decide)⟩

/-! ## Market economics (`backend/app/game_engine.py`) -/

/-- The per-update entry appended to `price_history`. -/
structure PriceSnapshot where
  buy_price : Int
  sell_price : Int
  supply : Int
  demand : Int
deriving Repr, DecidableEq

/-- A `MarketPrice` row: prices, supply/demand, and the JSON
`price_history` dict keyed by update timestamp (integer seconds). -/
structure MarketPrice where
  buy_price : Int
  sell_price : Int
  supply : Int
  demand : Int
  price_history : List (Int × PriceSnapshot)
deriving Repr, DecidableEq

/-- `supply / max(demand, 1)` as an exact rational. -/
def supplyDemandRatio (supply demand : Int) : ℚ :=
  (supply : ℚ) / ((max demand 1 : Int) : ℚ)

/-- The per-price branch of `_process_market_updates`: ratio above 1.5
decays the price by 0.95 with a floor of 1; ratio below 0.7 grows it
by 1.05 (no floor applied); otherwise the price is untouched. -/
def marketAdjustPrice (ratio : ℚ) (price : Int) : Int :=
  if ratio > 3/2 then max 1 (pyInt ((price : ℚ) * (19/20)))
  else if ratio < 7/10 then pyInt ((price : ℚ) * (21/20))
  else price

/-- The loop body of `_process_market_updates` (game_engine.py lines
179-216) for one market entry, with the two `randint(-10, 10)` rolls
pinned as `supply_change` / `demand_change` and the update instant as
`now`: random-walk the supply and demand (floored at 0), adjust both
prices from the supply/demand ratio, record the new state in
`price_history[now]`, and prune history entries at least 24 hours
(86400 s) old. -/
def marketTick (p : MarketPrice) (supply_change demand_change : Int) (now : Int) :
    MarketPrice :=
  let supply' := max 0 (p.supply + supply_change)
  let demand' := max 0 (p.demand + demand_change)
  let ratio := supplyDemandRatio supply' demand'
  let buy' := marketAdjustPrice ratio p.buy_price
  let sell' := marketAdjustPrice ratio p.sell_price
  { buy_price := buy'
    sell_price := sell'
    supply := supply'
    demand := demand'
    price_history :=
      (dictSet p.price_history now ⟨buy', sell', supply', demand'⟩).filter
        (fun e => now - 86400 < e.1) }

/-- `price_multiplier` of `_create_market_shift_event`'s payload:
1.5 for a "surge", 0.7 for a "crash". -/
def marketShiftMultiplier (shift_direction : String) : ℚ :=
  if shift_direction = "surge" then 3/2 else 7/10

/-- The immediate price application of a market-shift world event
(game_engine.py lines 337-340): both prices are multiplied and
truncated, with no floor. -/
def applyMarketShift (p : MarketPrice) (price_multiplier : ℚ) : MarketPrice :=
  { p with
    buy_price := pyInt ((p.buy_price : ℚ) * price_multiplier)
    sell_price := pyInt ((p.sell_price : ℚ) * price_multiplier) }

/-! ### Market claims -/

/-- C2 counterexample: a market entry with `buy_price = sell_price = 1`
hit by a market-shift "crash" event (multiplier 0.7) ends with both
prices equal to 0 — the price floor does not survive the event's
immediate price application. -/
theorem market_shift_crash_breaks_floor :
    (1 : Int) ≤ (MarketPrice.mk 1 1 100 100 []).buy_price ∧
    (1 : Int) ≤ (MarketPrice.mk 1 1 100 100 []).sell_price ∧
    (applyMarketShift (MarketPrice.mk 1 1 100 100 [])
        (marketShiftMultiplier "crash")).buy_price = 0 ∧
    (applyMarketShift (MarketPrice.mk 1 1 100 100 [])
        (marketShiftMultiplier "crash")).sell_price = 0 := by
  have hc : marketShiftMultiplier "crash" = 7/10 := by
    rw [marketShiftMultiplier, if_neg (by decide)]
  norm_num [applyMarketShift, hc, pyInt]
  all_goals decide

/-- C2 (amended): the price floor `buy_price ≥ 1 ∧ sell_price ≥ 1` is
preserved by the periodic economic simulation step, and by the
market-shift event's immediate price application when the shift is a
"surge" (multiplier 1.5); the "crash" multiplier 0.7 applies no floor
and can drop a price of 1 to 0. -/
theorem market_update_price_floor (p : MarketPrice) (sd dd now : Int)
    (hb : 1 ≤ p.buy_price) (hs : 1 ≤ p.sell_price) :
    (1 ≤ (marketTick p sd dd now).buy_price ∧
     1 ≤ (marketTick p sd dd now).sell_price) ∧
    (1 ≤ (applyMarketShift p (marketShiftMultiplier "surge")).buy_price ∧
     1 ≤ (applyMarketShift p (marketShiftMultiplier "surge")).sell_price) := by
  have key : ∀ (ratio : ℚ) (price : Int), 1 ≤ price →
      1 ≤ marketAdjustPrice ratio price := by
    intro ratio price hp
    unfold marketAdjustPrice
    split_ifs with h1 h2
    · exact le_max_left 1 _
    · apply one_le_pyInt
      have hp' : (1 : ℚ) ≤ (price : ℚ) := by exact_mod_cast hp
      linarith
    · exact hp
  refine ⟨⟨key _ _ hb, key _ _ hs⟩, ?_, ?_⟩
  · show 1 ≤ pyInt ((p.buy_price : ℚ) * marketShiftMultiplier "surge")
    apply one_le_pyInt
    have hp' : (1 : ℚ) ≤ (p.buy_price : ℚ) := by exact_mod_cast hb
    rw [marketShiftMultiplier]
    norm_num
    linarith
  · show 1 ≤ pyInt ((p.sell_price : ℚ) * marketShiftMultiplier "surge")
    apply one_le_pyInt
    have hp' : (1 : ℚ) ≤ (p.sell_price : ℚ) := by exact_mod_cast hs
    rw [marketShiftMultiplier]
    norm_num
    linarith

/-- Witness for C2's amended theorem at a concrete market entry. -/
theorem market_update_price_floor_witness :
    (1 : Int) ≤ (MarketPrice.mk 1 20 300 10 []).buy_price ∧
    (1 : Int) ≤ (MarketPrice.mk 1 20 300 10 []).sell_price ∧
    ((1 ≤ (marketTick (MarketPrice.mk 1 20 300 10 []) 5 (-5) 1000).buy_price ∧
      1 ≤ (marketTick (MarketPrice.mk 1 20 300 10 []) 5 (-5) 1000).sell_price) ∧
     (1 ≤ (applyMarketShift (MarketPrice.mk 1 20 300 10 [])
            (marketShiftMultiplier "surge")).buy_price ∧
      1 ≤ (applyMarketShift (MarketPrice.mk 1 20 300 10 [])
            (marketShiftMultiplier "surge")).sell_price)) :=
  ⟨by decide, by decide,
   market_update_price_floor _ 5 (-5) 1000 (by decide) (by decide)⟩

/-- C5: in one economic-simulation step, after the supply/demand
deltas are applied, a ratio above 1.5 multiplies both prices by 0.95
with a floor of 1, a ratio below 0.7 multiplies both by 1.05, and any
other ratio leaves both unchanged; for a starting entry with
`supply = 200` and `demand = 50` the ratio is above 1.5 for every pair
of deltas within [-10, 10], so the next update applies the 0.95 decay
(floored at 1) to both prices. -/
theorem market_price_movement_rule (p : MarketPrice) (sd dd now : Int) :
    ((3/2 : ℚ) < supplyDemandRatio (max 0 (p.supply + sd)) (max 0 (p.demand + dd)) →
      (marketTick p sd dd now).buy_price = max 1 (pyInt ((p.buy_price : ℚ) * (19/20))) ∧
      (marketTick p sd dd now).sell_price = max 1 (pyInt ((p.sell_price : ℚ) * (19/20)))) ∧
    (supplyDemandRatio (max 0 (p.supply + sd)) (max 0 (p.demand + dd)) < 7/10 →
      (marketTick p sd dd now).buy_price = pyInt ((p.buy_price : ℚ) * (21/20)) ∧
      (marketTick p sd dd now).sell_price = pyInt ((p.sell_price : ℚ) * (21/20))) ∧
    ((7/10 : ℚ) ≤ supplyDemandRatio (max 0 (p.supply + sd)) (max 0 (p.demand + dd)) →
      supplyDemandRatio (max 0 (p.supply + sd)) (max 0 (p.demand + dd)) ≤ 3/2 →
      (marketTick p sd dd now).buy_price = p.buy_price ∧
      (marketTick p sd dd now).sell_price = p.sell_price) ∧
    (p.supply = 200 → p.demand = 50 → -10 ≤ sd → sd ≤ 10 → -10 ≤ dd → dd ≤ 10 →
      (marketTick p sd dd now).buy_price = max 1 (pyInt ((p.buy_price : ℚ) * (19/20))) ∧
      (marketTick p sd dd now).sell_price = max 1 (pyInt ((p.sell_price : ℚ) * (19/20)))) := by
  have hbuy : (marketTick p sd dd now).buy_price
      = marketAdjustPrice
          (supplyDemandRatio (max 0 (p.supply + sd)) (max 0 (p.demand + dd)))
          p.buy_price := rfl
  have hsell : (marketTick p sd dd now).sell_price
      = marketAdjustPrice
          (supplyDemandRatio (max 0 (p.supply + sd)) (max 0 (p.demand + dd)))
          p.sell_price := rfl
  refine ⟨fun h1 => ?_, fun h2 => ?_, fun h3 h4 => ?_, fun e1 e2 b1 b2 b3 b4 => ?_⟩
  · rw [hbuy, hsell, marketAdjustPrice, marketAdjustPrice, if_pos h1, if_pos h1]
    exact ⟨rfl, rfl⟩
  · have h1 : ¬ ((3/2 : ℚ) < supplyDemandRatio (max 0 (p.supply + sd)) (max 0 (p.demand + dd))) := by
      linarith
    rw [hbuy, hsell, marketAdjustPrice, marketAdjustPrice,
        if_neg h1, if_neg h1, if_pos h2, if_pos h2]
    exact ⟨rfl, rfl⟩
  · have h1 : ¬ ((3/2 : ℚ) < supplyDemandRatio (max 0 (p.supply + sd)) (max 0 (p.demand + dd))) := by
      linarith
    have h2 : ¬ (supplyDemandRatio (max 0 (p.supply + sd)) (max 0 (p.demand + dd)) < 7/10) := by
      linarith
    rw [hbuy, hsell, marketAdjustPrice, marketAdjustPrice,
        if_neg h1, if_neg h1, if_neg h2, if_neg h2]
    exact ⟨rfl, rfl⟩
  · have hsup : max 0 (p.supply + sd) = p.supply + sd := by omega
    have hdem : max 0 (p.demand + dd) = p.demand + dd := by omega
    have hratio : (3/2 : ℚ)
        < supplyDemandRatio (max 0 (p.supply + sd)) (max 0 (p.demand + dd)) := by
      rw [hsup, hdem, supplyDemandRatio]
      have hmax : max (p.demand + dd) 1 = p.demand + dd := by omega
      rw [hmax]
      have hpos : (0 : ℚ) < ((p.demand + dd : Int) : ℚ) := by
        have : (0 : Int) < p.demand + dd := by omega
        exact_mod_cast this
      rw [lt_div_iff hpos]
      have hsb : (190 : Int) ≤ p.supply + sd := by omega
      have hdb : (p.demand + dd : Int) ≤ 60 := by omega
      have hsb' : (190 : ℚ) ≤ ((p.supply + sd : Int) : ℚ) := by exact_mod_cast hsb
      have hdb' : ((p.demand + dd : Int) : ℚ) ≤ 60 := by exact_mod_cast hdb
      linarith
    rw [hbuy, hsell, marketAdjustPrice, marketAdjustPrice, if_pos hratio, if_pos hratio]
    exact ⟨rfl, rfl⟩

/-- Witness for C5 at the spec's example entry (`supply=200, demand=50`,
prices 100 and 90, deltas 7 and -3): both prices take the 0.95 decay. -/
theorem market_price_movement_rule_witness :
    (MarketPrice.mk 100 90 200 50 []).supply = 200 ∧
    (MarketPrice.mk 100 90 200 50 []).demand = 50 ∧
    (-10 : Int) ≤ 7 ∧ (7 : Int) ≤ 10 ∧ (-10 : Int) ≤ -3 ∧ (-3 : Int) ≤ 10 ∧
    ((marketTick (MarketPrice.mk 100 90 200 50 []) 7 (-3) 5000).buy_price
        = max 1 (pyInt (((MarketPrice.mk 100 90 200 50 []).buy_price : ℚ) * (19/20))) ∧
     (marketTick (MarketPrice.mk 100 90 200 50 []) 7 (-3) 5000).sell_price
        = max 1 (pyInt (((MarketPrice.mk 100 90 200 50 []).sell_price : ℚ) * (19/20)))) :=
  ⟨rfl, rfl, by decide, by decide, by decide, by decide,
   (market_price_movement_rule (MarketPrice.mk 100 90 200 50 []) 7 (-3) 5000).2.2.2
     rfl rfl (by decide) (by decide) (by decide) (by decide)⟩

theorem dictSet_absent {β : Type} (l : List (Int × β)) (k : Int) (v : β)
    (h : ∀ e ∈ l, e.1 ≠ k) : dictSet l k v = l ++ [(k, v)] := by
  have hc : ¬ (l.any (fun e => e.1 = k) = true) := by
    intro hc
    simp only [List.any_eq_true, decide_eq_true_eq] at hc
    obtain ⟨e, he, hk⟩ := hc
    exact h e he hk
  rw [dictSet, if_neg hc]

theorem marketTick_history_eq (p : MarketPrice) (sd dd now : Int)
    (hpast : ∀ e ∈ p.price_history, e.1 < now) :
    (marketTick p sd dd now).price_history
      = (p.price_history ++
          [(now, PriceSnapshot.mk (marketTick p sd dd now).buy_price
              (marketTick p sd dd now).sell_price
              (marketTick p sd dd now).supply
              (marketTick p sd dd now).demand)]).filter
          (fun e => now - 86400 < e.1) := by
  have habs : ∀ e ∈ p.price_history, e.1 ≠ now := fun e he => ne_of_lt (hpast e he)
  show (dictSet p.price_history now _).filter _ = _
  rw [dictSet_absent _ _ _ habs]
  rfl

/-- C6: one economic-simulation update prunes the price history by
age, not by count: afterwards every entry is strictly inside the
24-hour window ending at the update instant, every previously present
entry inside the window is retained exactly, the snapshot of the
freshly updated prices is present under the update timestamp, and
nothing else appears. -/
theorem market_history_retention (p : MarketPrice) (sd dd now : Int)
    (hpast : ∀ e ∈ p.price_history, e.1 < now) :
    (∀ e ∈ (marketTick p sd dd now).price_history, now - 86400 < e.1) ∧
    (∀ e ∈ p.price_history, now - 86400 < e.1 →
      e ∈ (marketTick p sd dd now).price_history) ∧
    ((now, PriceSnapshot.mk (marketTick p sd dd now).buy_price
        (marketTick p sd dd now).sell_price
        (marketTick p sd dd now).supply
        (marketTick p sd dd now).demand)
      ∈ (marketTick p sd dd now).price_history) ∧
    (∀ e ∈ (marketTick p sd dd now).price_history,
      e ∈ p.price_history ∨
      e = (now, PriceSnapshot.mk (marketTick p sd dd now).buy_price
            (marketTick p sd dd now).sell_price
            (marketTick p sd dd now).supply
            (marketTick p sd dd now).demand)) := by
  rw [marketTick_history_eq p sd dd now hpast]
  refine ⟨?_, ?_, ?_, ?_⟩
  · intro e he
    rw [List.mem_filter] at he
    exact of_decide_eq_true he.2
  · intro e he hwin
    rw [List.mem_filter]
    exact ⟨List.mem_append_left _ he, decide_eq_true hwin⟩
  · rw [List.mem_filter]
    constructor
    · exact List.mem_append_right _ (List.mem_singleton_self _)
    · exact decide_eq_true (by omega)
  · intro e he
    rw [List.mem_filter] at he
    rcases List.mem_append.mp he.1 with h | h
    · exact Or.inl h
    · exact Or.inr (List.mem_singleton.mp h)

/-- Witness for C6: an update at t = 100000 keeps the in-window entry
at t = 20000, prunes the stale entry at t = 5000, and appends the new
snapshot under t = 100000. -/
theorem market_history_retention_witness :
    (∀ e ∈ (MarketPrice.mk 100 90 200 50
        [(5000, PriceSnapshot.mk 7 6 5 4), (20000, PriceSnapshot.mk 9 8 7 6)]).price_history,
      e.1 < 100000) ∧
    ((∀ e ∈ (marketTick (MarketPrice.mk 100 90 200 50
        [(5000, PriceSnapshot.mk 7 6 5 4), (20000, PriceSnapshot.mk 9 8 7 6)]) 7 (-3)
        100000).price_history, (100000 : Int) - 86400 < e.1) ∧
    (∀ e ∈ (MarketPrice.mk 100 90 200 50
        [(5000, PriceSnapshot.mk 7 6 5 4), (20000, PriceSnapshot.mk 9 8 7 6)]).price_history,
      (100000 : Int) - 86400 < e.1 →
      e ∈ (marketTick (MarketPrice.mk 100 90 200 50
        [(5000, PriceSnapshot.mk 7 6 5 4), (20000, PriceSnapshot.mk 9 8 7 6)]) 7 (-3)
        100000).price_history) ∧
    ((100000,
      PriceSnapshot.mk
        (marketTick (MarketPrice.mk 100 90 200 50
          [(5000, PriceSnapshot.mk 7 6 5 4), (20000, PriceSnapshot.mk 9 8 7 6)]) 7 (-3)
          100000).buy_price
        (marketTick (MarketPrice.mk 100 90 200 50
          [(5000, PriceSnapshot.mk 7 6 5 4), (20000, PriceSnapshot.mk 9 8 7 6)]) 7 (-3)
          100000).sell_price
        (marketTick (MarketPrice.mk 100 90 200 50
          [(5000, PriceSnapshot.mk 7 6 5 4), (20000, PriceSnapshot.mk 9 8 7 6)]) 7 (-3)
          100000).supply
        (marketTick (MarketPrice.mk 100 90 200 50
          [(5000, PriceSnapshot.mk 7 6 5 4), (20000, PriceSnapshot.mk 9 8 7 6)]) 7 (-3)
          100000).demand)
      ∈ (marketTick (MarketPrice.mk 100 90 200 50
          [(5000, PriceSnapshot.mk 7 6 5 4), (20000, PriceSnapshot.mk 9 8 7 6)]) 7 (-3)
          100000).price_history) ∧
    (∀ e ∈ (marketTick (MarketPrice.mk 100 90 200 50
        [(5000, PriceSnapshot.mk 7 6 5 4), (20000, PriceSnapshot.mk 9 8 7 6)]) 7 (-3)
        100000).price_history,
      e ∈ (MarketPrice.mk 100 90 200 50
        [(5000, PriceSnapshot.mk 7 6 5 4), (20000, PriceSnapshot.mk 9 8 7 6)]).price_history ∨
      e = (100000,
        PriceSnapshot.mk
          (marketTick (MarketPrice.mk 100 90 200 50
            [(5000, PriceSnapshot.mk 7 6 5 4), (20000, PriceSnapshot.mk 9 8 7 6)]) 7 (-3)
            100000).buy_price
          (marketTick (MarketPrice.mk 100 90 200 50
            [(5000, PriceSnapshot.mk 7 6 5 4), (20000, PriceSnapshot.mk 9 8 7 6)]) 7 (-3)
            100000).sell_price
          (marketTick (MarketPrice.mk 100 90 200 50
            [(5000, PriceSnapshot.mk 7 6 5 4), (20000, PriceSnapshot.mk 9 8 7 6)]) 7 (-3)
            100000).supply
          (marketTick (MarketPrice.mk 100 90 200 50
            [(5000, PriceSnapshot.mk 7 6 5 4), (20000, PriceSnapshot.mk 9 8 7 6)]) 7 (-3)
            100000).demand))) :=
  ⟨by decide,
   market_history_retention
     (MarketPrice.mk 100 90 200 50
       [(5000, PriceSnapshot.mk 7 6 5 4), (20000, PriceSnapshot.mk 9 8 7 6)])
     7 (-3) 100000 (by decide)⟩

/-! ## Vehicle travel (`backend/app/routers/vehicles.py` and
`_update_vehicle_travels` in `backend/app/game_engine.py`) -/

/-- The travel-relevant fields of a `Vehicle` row. -/
structure Vehicle where
  is_traveling : Bool
  destination_id : Option Int
  travel_start_time : Option Int
  estimated_arrival : Option Int
  current_location_id : Option Int
  current_fuel : Int
  speed : Int
deriving Repr, DecidableEq

/-- `fuel_cost = int(distance * 0.1)` (vehicles.py line 214).  The
Euclidean distance — a float square root in the source — is abstracted
as an exact nonnegative rational parameter. -/
def fuelCost (distance : ℚ) : Int := pyInt (distance * (1/10))

/-- `travel_time_minutes = int(distance / speed * 60)` (vehicles.py
lines 210-211). -/
def travelTimeMinutes (v : Vehicle) (distance : ℚ) : Int :=
  pyInt (distance / (v.speed : ℚ) * 60)

/-- The vehicle-state logic of `start_travel` (vehicles.py lines
180-232), from the already-traveling check onward: the result is the
error raised (if any) together with the vehicle state as committed —
when an error is raised no field of the vehicle has been assigned, so
the prior state is returned untouched.  The destination is passed as
its id (the router has already resolved it) and `now` is the
`datetime.utcnow()` instant in seconds. -/
def startTravel (v : Vehicle) (destination_id : Int) (distance : ℚ) (now : Int) :
    Option String × Vehicle :=
  if v.is_traveling then (some "Vehicle is already traveling", v)
  else if v.current_location_id = none then (some "Vehicle has no current location", v)
  else if v.current_fuel < fuelCost distance then (some "Insufficient fuel for journey", v)
  else
    (none,
     { v with
        is_traveling := true
        destination_id := some destination_id
        travel_start_time := some now
        estimated_arrival := some (now + 60 * travelTimeMinutes v distance)
        current_fuel := v.current_fuel - fuelCost distance })

/-- The per-vehicle body of `_update_vehicle_travels` (game_engine.py
lines 101-107), applied by the tick loop to every vehicle selected by
`is_traveling == True` and `estimated_arrival <= now`: the arrival
clears all travel fields together and moves the vehicle to its
destination. -/
def resolveTravel (v : Vehicle) : Vehicle :=
  { v with
    is_traveling := false
    current_location_id := v.destination_id
    destination_id := none
    travel_start_time := none
    estimated_arrival := none }

/-- The travel-state invariant of the data model: `is_traveling` holds
iff both `destination_id` and `estimated_arrival` are set. -/
def travelInv (v : Vehicle) : Prop :=
  v.is_traveling = true ↔ (v.destination_id ≠ none ∧ v.estimated_arrival ≠ none)

/-- C3: a successful `start_travel` establishes the travel invariant
(it sets `is_traveling`, `destination_id` and `estimated_arrival`
together), travel resolution re-establishes it (it clears all three
together), and hence the invariant holds round-trip across
start-travel followed by resolve-travel; moreover resolution yields it
for every vehicle whatsoever. -/
theorem travel_invariant_roundtrip (v : Vehicle) (dest : Int) (dist : ℚ) (now : Int) :
    ((startTravel v dest dist now).1 = none →
      travelInv (startTravel v dest dist now).2 ∧
      travelInv (resolveTravel (startTravel v dest dist now).2)) ∧
    (∀ u : Vehicle, travelInv (resolveTravel u)) := by
  have hres : ∀ u : Vehicle, travelInv (resolveTravel u) := by
    intro u
    simp [travelInv, resolveTravel]
  refine ⟨fun hok => ⟨?_, hres _⟩, hres⟩
  rw [startTravel] at hok ⊢
  split_ifs at hok ⊢ <;> simp_all [travelInv]

/-- Witness for C3 at a concrete journey. -/
theorem travel_invariant_roundtrip_witness :
    (startTravel (Vehicle.mk false none none none (some 3) 200 60) 9 100 5000).1 = none ∧
    (travelInv (startTravel (Vehicle.mk false none none none (some 3) 200 60) 9 100 5000).2 ∧
     travelInv (resolveTravel
        (startTravel (Vehicle.mk false none none none (some 3) 200 60) 9 100 5000).2)) :=
  ⟨by rw [startTravel, if_neg (by decide), if_neg (by decide),
          if_neg (by norm_num [fuelCost, pyInt])],
   (travel_invariant_roundtrip (Vehicle.mk false none none none (some 3) 200 60) 9 100 5000).1
     (by rw [startTravel, if_neg (by decide), if_neg (by decide),
             if_neg (by norm_num [fuelCost, pyInt])])⟩

/-- C9: when the vehicle's fuel is below the computed fuel cost (and
the request has passed the earlier already-traveling and
no-current-location rejections), `start_travel` rejects with exactly
the "Insufficient fuel for journey" error and returns the vehicle
state entirely unchanged — no field has been mutated. -/
theorem start_travel_insufficient_fuel (v : Vehicle) (dest : Int) (dist : ℚ) (now : Int)
    (h1 : v.is_traveling = false) (h2 : v.current_location_id ≠ none)
    (h3 : v.current_fuel < fuelCost dist) :
    startTravel v dest dist now = (some "Insufficient fuel for journey", v) := by
  rw [startTravel, if_neg (by simp [h1]), if_neg h2, if_pos h3]

/-- Witness for C9: a vehicle with 5 fuel facing a cost-10 journey. -/
theorem start_travel_insufficient_fuel_witness :
    (Vehicle.mk false none none none (some 3) 5 60).is_traveling = false ∧
    (Vehicle.mk false none none none (some 3) 5 60).current_location_id ≠ none ∧
    (Vehicle.mk false none none none (some 3) 5 60).current_fuel < fuelCost 100 ∧
    startTravel (Vehicle.mk false none none none (some 3) 5 60) 9 100 5000
      = (some "Insufficient fuel for journey", Vehicle.mk false none none none (some 3) 5 60) :=
  ⟨rfl, by decide, by norm_num [fuelCost, pyInt],
   start_travel_insufficient_fuel (Vehicle.mk false none none none (some 3) 5 60) 9 100 5000
     rfl (by decide) (by norm_num [fuelCost, pyInt])⟩

/-! ## Mission deadline sweep (`_check_mission_deadlines`,
`backend/app/game_engine.py` lines 438-475) -/

/-- `MissionStatus` enum from models.py. -/
inductive MissionStatus where
  | available
  | accepted
  | in_progress
  | completed
  | failed
  | expired
deriving Repr, DecidableEq

/-- The sweep-relevant fields of a `Mission` row.  `penalty_credits`
is a nullable integer column with default 0. -/
structure Mission where
  status : MissionStatus
  deadline : Int
  reward_credits : Int
  penalty_credits : Option Int
deriving Repr, DecidableEq

/-- The sweep-relevant fields of the mission's owning `Player` row. -/
structure PlayerState where
  credits : Int
  reputation : Int
deriving Repr, DecidableEq

/-- Python's `a or b` for a nullable integer `a`: both `None` and `0`
are falsy and fall through to `b`. -/
def pyOrInt (o : Option Int) (dflt : Int) : Int :=
  match o with
  | some v => if v = 0 then dflt else v
  | none => dflt

/-- One mission's share of `_check_mission_deadlines`: the DB query
selects missions with status in {ACCEPTED, IN_PROGRESS} and
`deadline <= now`; each selected mission is failed and its owner
penalised by `penalty_credits or reward_credits // 4`, with credits
and reputation floored at 0.  (A mission with no loaded player only
has its status set; this embedding covers the owned case the claim is
about.) -/
def checkMissionDeadline (m : Mission) (p : PlayerState) (now : Int) :
    Mission × PlayerState :=
  if (m.status = MissionStatus.accepted ∨ m.status = MissionStatus.in_progress)
      ∧ m.deadline ≤ now then
    let penalty := pyOrInt m.penalty_credits (Int.fdiv m.reward_credits 4)
    ({ m with status := MissionStatus.failed },
     { credits := max 0 (p.credits - penalty),
       reputation := max 0 (p.reputation - 2) })
  else (m, p)

/-- C4: the deadline sweep fails every overdue accepted/in-progress
mission, deducts the penalty — the explicit nonzero `penalty_credits`
when present, otherwise a quarter of the reward — from the owner's
credits floored at 0, and lowers the owner's reputation by 2 floored
at 0; with `reward_credits = 1000` and no explicit penalty the
deduction is 250. -/
theorem mission_deadline_sweep (m : Mission) (p : PlayerState) (now : Int)
    (hs : m.status = MissionStatus.accepted ∨ m.status = MissionStatus.in_progress)
    (hd : m.deadline ≤ now) :
    (checkMissionDeadline m p now).1.status = MissionStatus.failed ∧
    (checkMissionDeadline m p now).2.credits
      = max 0 (p.credits - pyOrInt m.penalty_credits (Int.fdiv m.reward_credits 4)) ∧
    (checkMissionDeadline m p now).2.reputation = max 0 (p.reputation - 2) ∧
    (∀ pc : Int, m.penalty_credits = some pc → pc ≠ 0 →
      (checkMissionDeadline m p now).2.credits = max 0 (p.credits - pc)) ∧
    (m.penalty_credits = none →
      (checkMissionDeadline m p now).2.credits
        = max 0 (p.credits - Int.fdiv m.reward_credits 4)) ∧
    (m.reward_credits = 1000 → (m.penalty_credits = none ∨ m.penalty_credits = some 0) →
      (checkMissionDeadline m p now).2.credits = max 0 (p.credits - 250)) := by
  rw [checkMissionDeadline, if_pos ⟨hs, hd⟩]
  have h250 : Int.fdiv 1000 4 = 250 := by decide
  refine ⟨rfl, rfl, rfl, ?_, ?_, ?_⟩
  · intro pc hpc hne
    simp [pyOrInt, hpc, hne]
  · intro hn
    simp [pyOrInt, hn]
  · intro hr hpn
    rcases hpn with hn | h0
    · simp [pyOrInt, hn, hr, h250]
    · simp [pyOrInt, h0, hr, h250]

/-- Witness for C4 at the spec's example: overdue in-progress mission,
reward 1000, penalty unset, owner at 800 credits and 1 reputation. -/
theorem mission_deadline_sweep_witness :
    ((Mission.mk MissionStatus.in_progress 100 1000 none).status = MissionStatus.accepted ∨
     (Mission.mk MissionStatus.in_progress 100 1000 none).status = MissionStatus.in_progress) ∧
    (Mission.mk MissionStatus.in_progress 100 1000 none).deadline ≤ 200 ∧
    ((checkMissionDeadline (Mission.mk MissionStatus.in_progress 100 1000 none)
        (PlayerState.mk 800 1) 200).1.status = MissionStatus.failed ∧
     (checkMissionDeadline (Mission.mk MissionStatus.in_progress 100 1000 none)
        (PlayerState.mk 800 1) 200).2.credits
       = max 0 ((PlayerState.mk 800 1).credits
           - pyOrInt (Mission.mk MissionStatus.in_progress 100 1000 none).penalty_credits
               (Int.fdiv (Mission.mk MissionStatus.in_progress 100 1000 none).reward_credits 4)) ∧
     (checkMissionDeadline (Mission.mk MissionStatus.in_progress 100 1000 none)
        (PlayerState.mk 800 1) 200).2.reputation
       = max 0 ((PlayerState.mk 800 1).reputation - 2) ∧
     (∀ pc : Int,
       (Mission.mk MissionStatus.in_progress 100 1000 none).penalty_credits = some pc →
       pc ≠ 0 →
       (checkMissionDeadline (Mission.mk MissionStatus.in_progress 100 1000 none)
          (PlayerState.mk 800 1) 200).2.credits = max 0 ((PlayerState.mk 800 1).credits - pc)) ∧
     ((Mission.mk MissionStatus.in_progress 100 1000 none).penalty_credits = none →
       (checkMissionDeadline (Mission.mk MissionStatus.in_progress 100 1000 none)
          (PlayerState.mk 800 1) 200).2.credits
         = max 0 ((PlayerState.mk 800 1).credits
             - Int.fdiv (Mission.mk MissionStatus.in_progress 100 1000 none).reward_credits 4)) ∧
     ((Mission.mk MissionStatus.in_progress 100 1000 none).reward_credits = 1000 →
       ((Mission.mk MissionStatus.in_progress 100 1000 none).penalty_credits = none ∨
        (Mission.mk MissionStatus.in_progress 100 1000 none).penalty_credits = some 0) →
       (checkMissionDeadline (Mission.mk MissionStatus.in_progress 100 1000 none)
          (PlayerState.mk 800 1) 200).2.credits
         = max 0 ((PlayerState.mk 800 1).credits - 250))) :=
  ⟨Or.inr rfl, by decide,
   mission_deadline_sweep (Mission.mk MissionStatus.in_progress 100 1000 none)
     (PlayerState.mk 800 1) 200 (Or.inr rfl) (by decide)⟩

/-! ## Connection registry (`backend/app/websocket_manager.py`) -/

/-- The `WebSocketManager`'s four maps, with the channel handles
elided: `active_connections` keeps just the player ids that own a live
channel. -/
structure WSManager where
  active_connections : List Int
  player_locations : List (Int × Int)
  location_groups : List (Int × List Int)
  alliance_groups : List (Int × List Int)
deriving Repr, DecidableEq

/-- Python `set.add` on a duplicate-free member list. -/
def setAdd (s : List Int) (x : Int) : List Int := if x ∈ s then s else s ++ [x]

/-- Python `key in d` / `d[key]` on an association list. -/
def dictLookup {β : Type} (l : List (Int × β)) (k : Int) : Option β :=
  match l with
  | [] => none
  | e :: rest => if e.1 = k then some e.2 else dictLookup rest k

theorem dictLookup_eq_none {β : Type} {l : List (Int × β)} {k : Int}
    (h : dictLookup l k = none) : ∀ e ∈ l, e.1 ≠ k := by
  induction l with
  | nil =>
    intro e he
    exact absurd he (List.not_mem_nil e)
  | cons a t ih =>
    rw [dictLookup] at h
    split_ifs at h with ha
    intro e he
    rcases List.mem_cons.mp he with rfl | he2
    · exact ha
    · exact ih h e he2

/-- The manager's remove-from-group pattern (websocket_manager.py
lines 54-57, 131-136, 147-150): `groups[gid].discard(player_id)`
followed by `del groups[gid]` when that leaves the group empty.  When
`gid` holds no group the maps are returned unchanged, matching the
source's `if gid in groups` guards. -/
def removeFromGroup (groups : List (Int × List Int)) (gid player_id : Int) :
    List (Int × List Int) :=
  (groups.map (fun g =>
    if g.1 = gid then (g.1, g.2.filter (fun q => q ≠ player_id)) else g)).filter
    (fun g => ¬(g.1 = gid ∧ g.2 = []))

/-- The manager's add-to-group pattern (websocket_manager.py lines
140-142, 153-156): create the group as an empty set when absent, then
`groups[gid].add(player_id)`. -/
def addToGroup (groups : List (Int × List Int)) (gid player_id : Int) :
    List (Int × List Int) :=
  if groups.any (fun g => g.1 = gid) then
    groups.map (fun g => if g.1 = gid then (g.1, setAdd g.2 player_id) else g)
  else
    groups ++ [(gid, [player_id])]

theorem removeFromGroup_cases {groups : List (Int × List Int)} {gid pid : Int}
    {g : Int × List Int} (hg : g ∈ removeFromGroup groups gid pid) :
    (g ∈ groups ∧ g.1 ≠ gid) ∨
    (∃ g0 ∈ groups, g0.1 = gid ∧ g = (g0.1, g0.2.filter (fun q => q ≠ pid))) := by
  rw [removeFromGroup, List.mem_filter] at hg
  obtain ⟨hg1, _⟩ := hg
  rw [List.mem_map] at hg1
  obtain ⟨g0, hg0, hfg⟩ := hg1
  by_cases hc : g0.1 = gid
  · right
    exact ⟨g0, hg0, hc, by rw [← hfg, if_pos hc]⟩
  · left
    rw [if_neg hc] at hfg
    rw [← hfg]
    exact ⟨hg0, hc⟩

theorem removeFromGroup_nonempty {groups : List (Int × List Int)} {gid pid : Int}
    (h : ∀ g ∈ groups, g.2 ≠ []) :
    ∀ g ∈ removeFromGroup groups gid pid, g.2 ≠ [] := by
  intro g hg
  rw [removeFromGroup, List.mem_filter] at hg
  obtain ⟨hg1, hcond⟩ := hg
  rw [List.mem_map] at hg1
  obtain ⟨g0, hg0, hfg⟩ := hg1
  by_cases hc : g0.1 = gid
  · have hc2 := of_decide_eq_true hcond
    intro hempty
    apply hc2
    refine ⟨?_, hempty⟩
    rw [← hfg, if_pos hc]
    exact hc
  · rw [if_neg hc] at hfg
    rw [← hfg]
    exact h g0 hg0

/-- `WebSocketManager.disconnect` (websocket_manager.py lines 46-71):
drop the connection entry, remove the player from the location group
named by `player_locations` (deleting that group if it is left empty)
and drop its `player_locations` entry, discard the player from every
alliance group, and rebuild `alliance_groups` keeping only non-empty
groups. -/
def disconnect (st : WSManager) (player_id : Int) : WSManager :=
  { active_connections := st.active_connections.filter (fun q => q ≠ player_id)
    player_locations :=
      match dictLookup st.player_locations player_id with
      | some _ => st.player_locations.filter (fun e => e.1 ≠ player_id)
      | none => st.player_locations
    location_groups :=
      match dictLookup st.player_locations player_id with
      | some lid => removeFromGroup st.location_groups lid player_id
      | none => st.location_groups
    alliance_groups :=
      (st.alliance_groups.map
        (fun g => (g.1, g.2.filter (fun q => q ≠ player_id)))).filter
        (fun g => ¬g.2 = []) }

/-- The registry's reachable-state invariant: a player sits in a
location group exactly when `player_locations` names that group, and
no group — location or alliance — is empty (the manager deletes a
group the moment it empties, so a pruning pass is never needed). -/
def WSWellFormed (st : WSManager) : Prop :=
  (∀ g ∈ st.location_groups, ∀ q ∈ g.2, dictLookup st.player_locations q = some g.1) ∧
  (∀ g ∈ st.location_groups, g.2 ≠ []) ∧
  (∀ g ∈ st.alliance_groups, g.2 ≠ [])

/-- C7: on any well-formed registry state, `disconnect` leaves the
player a member of no location group and no alliance group, absent
from the connection map and the player-location map, and leaves no
empty group behind. -/
theorem disconnect_no_dangling (st : WSManager) (player_id : Int)
    (hwf : WSWellFormed st) :
    (∀ g ∈ (disconnect st player_id).location_groups, player_id ∉ g.2) ∧
    (∀ g ∈ (disconnect st player_id).alliance_groups, player_id ∉ g.2) ∧
    player_id ∉ (disconnect st player_id).active_connections ∧
    (∀ e ∈ (disconnect st player_id).player_locations, e.1 ≠ player_id) ∧
    (∀ g ∈ (disconnect st player_id).location_groups, g.2 ≠ []) ∧
    (∀ g ∈ (disconnect st player_id).alliance_groups, g.2 ≠ []) := by
  obtain ⟨hmem, hne, hane⟩ := hwf
  refine ⟨?_, ?_, ?_, ?_, ?_, ?_⟩
  · -- no location-group membership survives
    intro g hg hq
    cases hl : dictLookup st.player_locations player_id with
    | none =>
      simp only [disconnect, hl] at hg
      have h2 := hmem g hg player_id hq
      rw [hl] at h2
      exact Option.noConfusion h2
    | some lid =>
      simp only [disconnect, hl] at hg
      rcases removeFromGroup_cases hg with ⟨hgin, hgne⟩ | ⟨g0, hg0, hglid, rfl⟩
      · have h2 := hmem g hgin player_id hq
        rw [hl] at h2
        exact hgne (Option.some.inj h2).symm
      · simp at hq
  · -- no alliance-group membership survives
    intro g hg hq
    simp only [disconnect] at hg
    rw [List.mem_filter] at hg
    obtain ⟨hg1, _⟩ := hg
    rw [List.mem_map] at hg1
    obtain ⟨g0, _, hfg⟩ := hg1
    rw [← hfg] at hq
    simp at hq
  · -- gone from the connection map
    simp [disconnect, List.mem_filter]
  · -- gone from the player-location map
    intro e he
    cases hl : dictLookup st.player_locations player_id with
    | none =>
      simp only [disconnect, hl] at he
      exact dictLookup_eq_none hl e he
    | some lid =>
      simp only [disconnect, hl] at he
      rw [List.mem_filter] at he
      exact of_decide_eq_true he.2
  · -- no empty location group remains
    intro g hg
    cases hl : dictLookup st.player_locations player_id with
    | none =>
      simp only [disconnect, hl] at hg
      exact hne g hg
    | some lid =>
      simp only [disconnect, hl] at hg
      exact removeFromGroup_nonempty hne g hg
  · -- no empty alliance group remains
    intro g hg
    simp only [disconnect] at hg
    rw [List.mem_filter] at hg
    exact of_decide_eq_true hg.2

/-- Witness for C7: a two-player registry — player 1 and 2 share
location 5, player 1 is in alliances 7 and 8 (alliance 8 alone) —
after `disconnect 1`. -/
theorem disconnect_no_dangling_witness :
    WSWellFormed (WSManager.mk [1, 2] [(1, 5), (2, 5)]
        [(5, [1, 2])] [(7, [1, 2]), (8, [1])]) ∧
    ((∀ g ∈ (disconnect (WSManager.mk [1, 2] [(1, 5), (2, 5)]
        [(5, [1, 2])] [(7, [1, 2]), (8, [1])]) 1).location_groups, (1 : Int) ∉ g.2) ∧
     (∀ g ∈ (disconnect (WSManager.mk [1, 2] [(1, 5), (2, 5)]
        [(5, [1, 2])] [(7, [1, 2]), (8, [1])]) 1).alliance_groups, (1 : Int) ∉ g.2) ∧
     (1 : Int) ∉ (disconnect (WSManager.mk [1, 2] [(1, 5), (2, 5)]
        [(5, [1, 2])] [(7, [1, 2]), (8, [1])]) 1).active_connections ∧
     (∀ e ∈ (disconnect (WSManager.mk [1, 2] [(1, 5), (2, 5)]
        [(5, [1, 2])] [(7, [1, 2]), (8, [1])]) 1).player_locations, e.1 ≠ (1 : Int)) ∧
     (∀ g ∈ (disconnect (WSManager.mk [1, 2] [(1, 5), (2, 5)]
        [(5, [1, 2])] [(7, [1, 2]), (8, [1])]) 1).location_groups, g.2 ≠ []) ∧
     (∀ g ∈ (disconnect (WSManager.mk [1, 2] [(1, 5), (2, 5)]
        [(5, [1, 2])] [(7, [1, 2]), (8, [1])]) 1).alliance_groups, g.2 ≠ [])) :=
  ⟨by unfold WSWellFormed; decide,
   disconnect_no_dangling
     (WSManager.mk [1, 2] [(1, 5), (2, 5)] [(5, [1, 2])] [(7, [1, 2]), (8, [1])])
     1 (by unfold WSWellFormed; decide)⟩

/-! ### The other registry operations, and why `WSWellFormed` covers
every reachable registry state: the initial state is well-formed and
`connect`, `update_player_location`, `update_player_alliance` and
`disconnect` — the only writers of the four maps — each preserve
well-formedness. -/

/-- `WebSocketManager.connect` (websocket_manager.py lines 29-44)
restricted to the id set: registering a channel for `player_id`
supersedes any prior one, so on ids it is a set-add. -/
def connect (st : WSManager) (player_id : Int) : WSManager :=
  { st with active_connections := setAdd st.active_connections player_id }

/-- `WebSocketManager.update_player_location` (websocket_manager.py
lines 128-142): remove the player from its old location group (if
any, deleting the group when emptied), repoint `player_locations`,
and add the player to the new location's group (creating it if
absent). -/
def update_player_location (st : WSManager) (player_id location_id : Int) : WSManager :=
  { st with
    player_locations := dictSet st.player_locations player_id location_id
    location_groups :=
      addToGroup
        (match dictLookup st.player_locations player_id with
         | some old_lid => removeFromGroup st.location_groups old_lid player_id
         | none => st.location_groups)
        location_id player_id }

/-- `WebSocketManager.update_player_alliance` (websocket_manager.py
lines 144-156): drop the player from the old alliance group when one
is given (deleting the group when emptied), then add it to the new
alliance group when one is given (creating it if absent). -/
def update_player_alliance (st : WSManager) (player_id : Int)
    (alliance_id old_alliance_id : Option Int) : WSManager :=
  let ag :=
    match old_alliance_id with
    | some old => removeFromGroup st.alliance_groups old player_id
    | none => st.alliance_groups
  { st with
    alliance_groups :=
      match alliance_id with
      | some aid => addToGroup ag aid player_id
      | none => ag }

theorem mem_setAdd {s : List Int} {x q : Int} : q ∈ setAdd s x ↔ q ∈ s ∨ q = x := by
  rw [setAdd]
  split_ifs with hx
  · constructor
    · exact Or.inl
    · rintro (h | rfl)
      · exact h
      · exact hx
  · simp [List.mem_append]

theorem setAdd_ne_nil {s : List Int} {x : Int} : setAdd s x ≠ [] := by
  rw [setAdd]
  split_ifs with hx
  · intro h
    rw [h] at hx
    exact absurd hx (List.not_mem_nil x)
  · simp

theorem addToGroup_cases {groups : List (Int × List Int)} {gid pid : Int}
    {g : Int × List Int} (hg : g ∈ addToGroup groups gid pid) :
    (∃ g0 ∈ groups,
      (g0.1 = gid ∧ g = (g0.1, setAdd g0.2 pid)) ∨ (g0.1 ≠ gid ∧ g = g0)) ∨
    g = (gid, [pid]) := by
  rw [addToGroup] at hg
  split_ifs at hg with hany
  · rw [List.mem_map] at hg
    obtain ⟨g0, hg0, hfg⟩ := hg
    left
    refine ⟨g0, hg0, ?_⟩
    by_cases hc : g0.1 = gid
    · exact Or.inl ⟨hc, by rw [← hfg, if_pos hc]⟩
    · exact Or.inr ⟨hc, by rw [← hfg, if_neg hc]⟩
  · rcases List.mem_append.mp hg with h1 | h1
    · have hgne : g.1 ≠ gid := by
        intro hk
        apply hany
        rw [List.any_eq_true]
        exact ⟨g, h1, decide_eq_true hk⟩
      exact Or.inl ⟨g, h1, Or.inr ⟨hgne, rfl⟩⟩
    · exact Or.inr (List.mem_singleton.mp h1)

theorem addToGroup_nonempty {groups : List (Int × List Int)} {gid pid : Int}
    (h : ∀ g ∈ groups, g.2 ≠ []) : ∀ g ∈ addToGroup groups gid pid, g.2 ≠ [] := by
  intro g hg
  rcases addToGroup_cases hg with ⟨g0, hg0, hcase⟩ | rfl
  · rcases hcase with ⟨_, rfl⟩ | ⟨_, rfl⟩
    · exact setAdd_ne_nil
    · exact h _ hg0
  · simp

theorem dictLookup_map_overwrite {β : Type} (l : List (Int × β)) (k q : Int) (v : β)
    (hq : q ≠ k) :
    dictLookup (l.map (fun e => if e.1 = k then (k, v) else e)) q = dictLookup l q := by
  induction l with
  | nil => rfl
  | cons a r ih =>
    rw [List.map_cons]
    by_cases ha : a.1 = k
    · rw [if_pos ha, dictLookup]
      conv_rhs => rw [dictLookup]
      rw [if_neg (fun hh => hq hh.symm), if_neg (by rw [ha]; exact fun hh => hq hh.symm), ih]
    · rw [if_neg ha, dictLookup]
      conv_rhs => rw [dictLookup]
      by_cases haq : a.1 = q
      · rw [if_pos haq, if_pos haq]
      · rw [if_neg haq, if_neg haq, ih]

theorem dictLookup_append_single_ne {β : Type} (l : List (Int × β)) (k q : Int) (v : β)
    (hq : q ≠ k) : dictLookup (l ++ [(k, v)]) q = dictLookup l q := by
  induction l with
  | nil =>
    rw [List.nil_append]
    conv_lhs => rw [dictLookup]
    rw [if_neg (fun hh => hq hh.symm)]
  | cons a r ih =>
    rw [List.cons_append]
    conv_lhs => rw [dictLookup]
    conv_rhs => rw [dictLookup]
    by_cases haq : a.1 = q
    · rw [if_pos haq, if_pos haq]
    · rw [if_neg haq, if_neg haq, ih]

theorem dictLookup_dictSet_ne {β : Type} {l : List (Int × β)} {k q : Int} (v : β)
    (hq : q ≠ k) : dictLookup (dictSet l k v) q = dictLookup l q := by
  rw [dictSet]
  split_ifs with hany
  · exact dictLookup_map_overwrite l k q v hq
  · exact dictLookup_append_single_ne l k q v hq

theorem dictLookup_dictSet_self {β : Type} (l : List (Int × β)) (k : Int) (v : β) :
    dictLookup (dictSet l k v) k = some v := by
  rw [dictSet]
  split_ifs with hany
  · have hgen : ∀ (t : List (Int × β)), t.any (fun e => e.1 = k) = true →
        dictLookup (t.map (fun e => if e.1 = k then (k, v) else e)) k = some v := by
      intro t
      induction t with
      | nil =>
        intro hh
        simp at hh
      | cons a r ih =>
        intro hh
        by_cases ha : a.1 = k
        · rw [List.map_cons, if_pos ha, dictLookup]
          simp
        · rw [List.map_cons, if_neg ha, dictLookup, if_neg ha]
          apply ih
          simp only [List.any_cons, Bool.or_eq_true, decide_eq_true_eq] at hh
          rcases hh with hh | hh
          · exact absurd hh ha
          · exact hh
    exact hgen l hany
  · have hnone : ∀ e ∈ l, e.1 ≠ k := by
      intro e he hk
      apply hany
      rw [List.any_eq_true]
      exact ⟨e, he, decide_eq_true hk⟩
    have hgen : ∀ (t : List (Int × β)), (∀ e ∈ t, e.1 ≠ k) →
        dictLookup (t ++ [(k, v)]) k = some v := by
      intro t
      induction t with
      | nil =>
        intro _
        rw [List.nil_append, dictLookup]
        simp
      | cons a r ih =>
        intro hh
        rw [List.cons_append, dictLookup, if_neg (hh a (List.mem_cons_self a r))]
        exact ih (fun e he => hh e (List.mem_cons_of_mem a he))
    exact hgen l hnone

theorem dictLookup_filter_ne {β : Type} {l : List (Int × β)} {q k : Int} (hq : q ≠ k) :
    dictLookup (l.filter (fun e => e.1 ≠ k)) q = dictLookup l q := by
  induction l with
  | nil => rfl
  | cons a r ih =>
    rw [List.filter_cons]
    by_cases ha : a.1 = k
    · rw [if_neg (by simp [ha]), ih]
      conv_rhs => rw [dictLookup]
      rw [if_neg (by rw [ha]; exact fun hh => hq hh.symm)]
    · rw [if_pos (by simp [ha])]
      conv_lhs => rw [dictLookup]
      conv_rhs => rw [dictLookup]
      by_cases haq : a.1 = q
      · rw [if_pos haq, if_pos haq]
      · rw [if_neg haq, if_neg haq, ih]

theorem removeFromGroup_subset {groups : List (Int × List Int)} {gid pid : Int} :
    ∀ g ∈ removeFromGroup groups gid pid, ∀ q ∈ g.2,
      ∃ g0 ∈ groups, g0.1 = g.1 ∧ q ∈ g0.2 := by
  intro g hg q hq
  rcases removeFromGroup_cases hg with ⟨hgin, _⟩ | ⟨g0, hg0, _, rfl⟩
  · exact ⟨g, hgin, rfl, hq⟩
  · simp only [List.mem_filter, decide_eq_true_eq] at hq
    exact ⟨g0, hg0, rfl, hq.1⟩

theorem removeFromGroup_pid_not_mem {groups : List (Int × List Int)}
    {pl : List (Int × Int)} {pid lid : Int}
    (hmem : ∀ g ∈ groups, ∀ q ∈ g.2, dictLookup pl q = some g.1)
    (hl : dictLookup pl pid = some lid) :
    ∀ g ∈ removeFromGroup groups lid pid, pid ∉ g.2 := by
  intro g hg hq
  rcases removeFromGroup_cases hg with ⟨hgin, hgne⟩ | ⟨g0, hg0, _, rfl⟩
  · have h2 := hmem g hgin pid hq
    rw [hl] at h2
    exact hgne (Option.some.inj h2).symm
  · simp at hq

theorem lookup_none_pid_not_mem {groups : List (Int × List Int)}
    {pl : List (Int × Int)} {pid : Int}
    (hmem : ∀ g ∈ groups, ∀ q ∈ g.2, dictLookup pl q = some g.1)
    (hl : dictLookup pl pid = none) :
    ∀ g ∈ groups, pid ∉ g.2 := by
  intro g hg hq
  have h2 := hmem g hg pid hq
  rw [hl] at h2
  exact Option.noConfusion h2

theorem addToGroup_wf (groups : List (Int × List Int)) (pl : List (Int × Int))
    (pid lid : Int)
    (hF1 : ∀ g ∈ groups, ∀ q ∈ g.2, q ≠ pid → dictLookup pl q = some g.1)
    (hF2 : ∀ g ∈ groups, pid ∉ g.2) :
    ∀ g ∈ addToGroup groups lid pid, ∀ q ∈ g.2,
      dictLookup (dictSet pl pid lid) q = some g.1 := by
  intro g hg q hq
  rcases addToGroup_cases hg with ⟨g0, hg0, hcase⟩ | rfl
  · rcases hcase with ⟨hkey, rfl⟩ | ⟨_, rfl⟩
    · rcases mem_setAdd.mp hq with hq2 | rfl
      · have hqne : q ≠ pid := fun hh => hF2 g0 hg0 (hh ▸ hq2)
        rw [dictLookup_dictSet_ne lid hqne]
        exact hF1 g0 hg0 q hq2 hqne
      · rw [dictLookup_dictSet_self]
        simp [hkey]
    · have hqne : q ≠ pid := fun hh => hF2 _ hg0 (hh ▸ hq)
      rw [dictLookup_dictSet_ne lid hqne]
      exact hF1 _ hg0 q hq hqne
  · rw [List.mem_singleton.mp hq, dictLookup_dictSet_self]

theorem wsWellFormed_empty : WSWellFormed (WSManager.mk [] [] [] []) :=
  ⟨fun g hg => absurd hg (List.not_mem_nil g),
   fun g hg => absurd hg (List.not_mem_nil g),
   fun g hg => absurd hg (List.not_mem_nil g)⟩

theorem wsWellFormed_connect (st : WSManager) (pid : Int) (h : WSWellFormed st) :
    WSWellFormed (connect st pid) := h

theorem wsWellFormed_disconnect (st : WSManager) (pid : Int) (h : WSWellFormed st) :
    WSWellFormed (disconnect st pid) := by
  obtain ⟨hmem, hne, hane⟩ := h
  refine ⟨?_, ?_, ?_⟩
  · intro g hg q hq
    cases hl : dictLookup st.player_locations pid with
    | none =>
      simp only [disconnect, hl] at hg ⊢
      exact hmem g hg q hq
    | some lid =>
      simp only [disconnect, hl] at hg ⊢
      rcases removeFromGroup_cases hg with ⟨hgin, hgne⟩ | ⟨g0, hg0, _, rfl⟩
      · have hqne : q ≠ pid := by
          intro hqeq
          have h2 := hmem g hgin q hq
          rw [hqeq, hl] at h2
          exact hgne (Option.some.inj h2).symm
        rw [dictLookup_filter_ne hqne]
        exact hmem g hgin q hq
      · simp only [List.mem_filter, decide_eq_true_eq] at hq
        rw [dictLookup_filter_ne hq.2]
        exact hmem g0 hg0 q hq.1
  · intro g hg
    cases hl : dictLookup st.player_locations pid with
    | none =>
      simp only [disconnect, hl] at hg
      exact hne g hg
    | some lid =>
      simp only [disconnect, hl] at hg
      exact removeFromGroup_nonempty hne g hg
  · intro g hg
    simp only [disconnect] at hg
    rw [List.mem_filter] at hg
    exact of_decide_eq_true hg.2

theorem wsWellFormed_update_player_location (st : WSManager) (pid lid : Int)
    (h : WSWellFormed st) : WSWellFormed (update_player_location st pid lid) := by
  obtain ⟨hmem, hne, hane⟩ := h
  refine ⟨?_, ?_, ?_⟩
  · intro g hg q hq
    cases hl : dictLookup st.player_locations pid with
    | none =>
      simp only [update_player_location, hl] at hg ⊢
      refine addToGroup_wf st.location_groups st.player_locations pid lid ?_ ?_ g hg q hq
      · intro g1 hg1 q1 hq1 _
        exact hmem g1 hg1 q1 hq1
      · exact lookup_none_pid_not_mem hmem hl
    | some old =>
      simp only [update_player_location, hl] at hg ⊢
      refine addToGroup_wf _ st.player_locations pid lid ?_ ?_ g hg q hq
      · intro g1 hg1 q1 hq1 _
        obtain ⟨g0, hg0, hkey, hq0⟩ := removeFromGroup_subset g1 hg1 q1 hq1
        rw [← hkey]
        exact hmem g0 hg0 q1 hq0
      · exact removeFromGroup_pid_not_mem hmem hl
  · intro g hg
    cases hl : dictLookup st.player_locations pid with
    | none =>
      simp only [update_player_location, hl] at hg
      exact addToGroup_nonempty hne g hg
    | some old =>
      simp only [update_player_location, hl] at hg
      exact addToGroup_nonempty (removeFromGroup_nonempty hne) g hg
  · intro g hg
    simp only [update_player_location] at hg
    exact hane g hg

theorem wsWellFormed_update_player_alliance (st : WSManager) (pid : Int)
    (aid old_aid : Option Int) (h : WSWellFormed st) :
    WSWellFormed (update_player_alliance st pid aid old_aid) := by
  obtain ⟨hmem, hne, hane⟩ := h
  refine ⟨fun g hg q hq => hmem g hg q hq, fun g hg => hne g hg, ?_⟩
  intro g hg
  simp only [update_player_alliance] at hg
  cases old_aid with
  | none =>
    cases aid with
    | none => exact hane g hg
    | some a => exact addToGroup_nonempty hane g hg
  | some old =>
    cases aid with
    | none => exact removeFromGroup_nonempty hane g hg
    | some a => exact addToGroup_nonempty (removeFromGroup_nonempty hane) g hg

end CargoClash
